import Mathlib

/-
Verification of the Product validation and CRUD workflow of the
inventory_management_django repository.

The repository ships `inventory/forms.py` (the `ProductForm` with its
`clean_price` / `clean_quantity` hooks) and `inventory/tests.py`.  The model
and view modules are not part of the sources, so the entity store, the
field-level cleaning performed by the form framework, and the four workflow
handlers are modelled from the specification (sections 3, 4.1, 4.2, 4.3 and 6
of spec.md); the two custom clean hooks are translated directly from
`forms.py`.

Representation choices:
* a decimal price with two fractional places is represented exactly as an
  integer number of hundredths (so the input string "9999999.99" parses to
  999999999); this keeps decimal arithmetic exact;
* the entity store is an association list from numeric ids to records plus a
  fresh-id counter;
* an HTTP response is a tagged union: redirect (302), rendered page (200),
  rendered form with errors (200), or not-found (404).
-/

namespace Inventory

/-- Python `str.strip` on which Django's form `CharField` relies: remove
whitespace characters from both ends of the string. -/
def pyStrip (s : String) : String :=
  String.mk ((((s.data.dropWhile Char.isWhitespace).reverse).dropWhile
    Char.isWhitespace).reverse)

/-- Value of a list of decimal digit characters, `none` if a character is not
a digit. -/
def digitsVal (cs : List Char) : Option Nat :=
  cs.foldl
    (fun acc c =>
      match acc with
      | none => none
      | some n => if c.isDigit then some (n * 10 + (c.toNat - 48)) else none)
    (some 0)

/-- Value of a non-empty all-digit character list, `none` otherwise. -/
def parseNatDigits (cs : List Char) : Option Nat :=
  match cs with
  | [] => none
  | _ => digitsVal cs

/-- Split a character list into the groups separated by the dot character. -/
def splitDot : List Char → List (List Char)
  | [] => [[]]
  | c :: rest =>
      if c = '.' then [] :: splitDot rest
      else
        match splitDot rest with
        | [] => [[c]]
        | g :: gs => (c :: g) :: gs

/-- Modelled from the spec: magnitude of an unsigned decimal numeral with at
most two fractional places, in hundredths.  The view modules and the model
declaration (which fix `decimal_places = 2`) are not in the sources; spec
section 3 fixes two fractional places. -/
def parseDecMag (cs : List Char) : Option Nat :=
  match splitDot cs with
  | [ip] => (parseNatDigits ip).map (fun n => n * 100)
  | [ip, fp] =>
      if 2 < fp.length then none
      else
        match parseNatDigits ip, parseNatDigits fp with
        | some n, some f => some (n * 100 + f * 10 ^ (2 - fp.length))
        | _, _ => none
  | _ => none

/-- Modelled from the spec: parse a (possibly signed) decimal string with at
most two fractional places into an exact number of hundredths.  This is the
`DecimalField` to-python conversion of the form framework, which is not in
the sources. -/
def parseDecimal2 (s : String) : Option Int :=
  match s.data with
  | '-' :: rest => (parseDecMag rest).map (fun n => -(n : Int))
  | _ => (parseDecMag s.data).map (fun n => (n : Int))

/-- Modelled from the spec: parse a (possibly signed) integer string.  This is
the `IntegerField` to-python conversion of the form framework, which is not in
the sources. -/
def parseIntStr (s : String) : Option Int :=
  match s.data with
  | '-' :: rest => (parseNatDigits rest).map (fun n => -(n : Int))
  | _ => (parseNatDigits s.data).map (fun n => (n : Int))

/-- Translation of `ProductForm.clean_quantity` from
`inventory/forms.py`: raise `ValidationError "Quantity cannot be negative."`
when the cleaned value is present and negative, otherwise return the cleaned
value unchanged.  A raised `ValidationError` is the `Except.error` branch. -/
def clean_quantity (quantity : Option Int) : Except String (Option Int) :=
  match quantity with
  | some v =>
      if v < 0 then Except.error "Quantity cannot be negative."
      else Except.ok (some v)
  | none => Except.ok none

/-- Translation of `ProductForm.clean_price` from `inventory/forms.py`:
raise `ValidationError "Price cannot be negative."` when the cleaned value is
present and negative, otherwise return the cleaned value unchanged. -/
def clean_price (price : Option Int) : Except String (Option Int) :=
  match price with
  | some v =>
      if v < 0 then Except.error "Price cannot be negative."
      else Except.ok (some v)
  | none => Except.ok none

/-- Raw client input bound to the form: one string per editable field. -/
structure RawInput where
  name : String
  description : String
  price : String
  quantity : String
deriving Repr, DecidableEq

/-- A validated Product record.  `price` is an exact number of hundredths. -/
structure Product where
  name : String
  description : String
  price : Int
  quantity : Int
deriving Repr, DecidableEq

/-- Modelled from the spec: errors of the `name` field.  The `CharField` of
the model (not in the sources) strips surrounding whitespace, requires a
non-empty result and enforces `max_length = 100`; spec section 4.2. -/
def field_errors_name (i : RawInput) : List (String × String) :=
  let n := pyStrip i.name
  if n = "" then [("name", "This field is required.")]
  else if 100 < n.length then
    [("name", "Ensure this value has at most 100 characters.")]
  else []

/-- Errors of the `price` field: a parse failure is a required-type error
(spec section 4.2); on a parsed value the `clean_price` hook from
`forms.py` runs. -/
def field_errors_price (i : RawInput) : List (String × String) :=
  match parseDecimal2 i.price with
  | none => [("price", "This field is required.")]
  | some p =>
      match clean_price (some p) with
      | Except.error m => [("price", m)]
      | Except.ok _ => []

/-- Errors of the `quantity` field: a parse failure is a required-type error;
on a parsed value the `clean_quantity` hook from `forms.py` runs. -/
def field_errors_quantity (i : RawInput) : List (String × String) :=
  match parseIntStr i.quantity with
  | none => [("quantity", "This field is required.")]
  | some q =>
      match clean_quantity (some q) with
      | Except.error m => [("quantity", m)]
      | Except.ok _ => []

/-- All field errors of the bound form, evaluated independently per field and
collected (spec section 4.2).  `description` has no constraint. -/
def form_errors (i : RawInput) : List (String × String) :=
  field_errors_name i ++ field_errors_price i ++ field_errors_quantity i

/-- Validator verdict: `is_valid` is true iff the error mapping is empty. -/
def is_valid (i : RawInput) : Bool :=
  (form_errors i).isEmpty

/-- Messages attached to a given field key in an error mapping. -/
def errorsFor (errs : List (String × String)) (key : String) : List String :=
  errs.filterMap (fun kv => if kv.1 = key then some kv.2 else none)

/-- The fully-typed candidate record of a bound form whose numeric fields
parsed; the stored name is the stripped input name. -/
def cleaned_product (i : RawInput) : Option Product :=
  match parseDecimal2 i.price, parseIntStr i.quantity with
  | some p, some q =>
      some { name := pyStrip i.name, description := i.description,
             price := p, quantity := q }
  | _, _ => none

/-- Modelled from the spec: the entity store (spec section 4.1), an
association list from ids to records plus the next fresh id.  Ids are
assigned on creation and never reused. -/
structure Store where
  nextId : Nat
  records : List (Nat × Product)
deriving Repr, DecidableEq

/-- The empty store. -/
def Store.empty : Store := ⟨0, []⟩

/-- Store read: the record bound to `id`, if any. -/
def Store.get (s : Store) (id : Nat) : Option Product :=
  (s.records.find? (fun r => r.1 == id)).map (fun r => r.2)

/-- Store create: assign the next fresh id and append the record. -/
def Store.createRec (s : Store) (p : Product) : Store :=
  ⟨s.nextId + 1, s.records ++ [(s.nextId, p)]⟩

/-- Store update: full replacement of the record bound to `id`. -/
def Store.updateRec (s : Store) (id : Nat) (p : Product) : Store :=
  ⟨s.nextId, s.records.map (fun r => if r.1 == id then (id, p) else r)⟩

/-- Store delete: permanent removal of the record bound to `id`. -/
def Store.deleteRec (s : Store) (id : Nat) : Store :=
  ⟨s.nextId, s.records.filter (fun r => !(r.1 == id))⟩

/-- Modelled from the spec: the response of a workflow handler (spec
section 6): a redirect (302) naming its target endpoint, a rendered page
(200) whose body fragments are listed, a re-rendered form (200) carrying the
error mapping, or a not-found result (404). -/
inductive Response where
  | redirect : String → Response
  | render : List String → Response
  | renderForm : List (String × String) → Response
  | notFound : Response
deriving Repr, DecidableEq

/-- HTTP status code of a response. -/
def Response.status : Response → Nat
  | Response.redirect _ => 302
  | Response.render _ => 200
  | Response.renderForm _ => 200
  | Response.notFound => 404

/-- Modelled from the spec: the List workflow handler — render all records
(the body contains each product's name), store untouched. -/
def product_list_view (s : Store) : Response × Store :=
  (Response.render (s.records.map (fun r => r.2.name)), s)

/-- Modelled from the spec: the Create workflow handler — validate; on
success insert the cleaned record and redirect to the List endpoint; on
failure re-render the form with the error mapping, store untouched. -/
def product_create_view (s : Store) (i : RawInput) : Response × Store :=
  match cleaned_product i with
  | some p =>
      if is_valid i then (Response.redirect "product_list", s.createRec p)
      else (Response.renderForm (form_errors i), s)
  | none => (Response.renderForm (form_errors i), s)

/-- Modelled from the spec: the Update workflow handler — not-found when the
id does not resolve; otherwise validate and on success fully replace the
record and redirect to List, on failure re-render with errors. -/
def product_update_view (s : Store) (id : Nat) (i : RawInput) :
    Response × Store :=
  match s.get id with
  | none => (Response.notFound, s)
  | some _ =>
      match cleaned_product i with
      | some p =>
          if is_valid i then
            (Response.redirect "product_list", s.updateRec id p)
          else (Response.renderForm (form_errors i), s)
      | none => (Response.renderForm (form_errors i), s)

/-- Modelled from the spec: the Delete workflow handler — not-found when the
id is absent; otherwise remove the record and redirect to List. -/
def product_delete_view (s : Store) (id : Nat) : Response × Store :=
  match s.get id with
  | none => (Response.notFound, s)
  | some _ => (Response.redirect "product_list", s.deleteRec id)

/-- A record satisfying the store invariants of spec section 3: non-negative
price and quantity, name neither empty nor whitespace-only. -/
def goodProduct (p : Product) : Prop :=
  0 ≤ p.price ∧ 0 ≤ p.quantity ∧ p.name ≠ "" ∧
    p.name.data.all Char.isWhitespace = false

instance (p : Product) : Decidable (goodProduct p) := by
  unfold goodProduct; infer_instance

/-- Store states reachable from the empty store when every write goes
through a workflow handler (and hence through the Validator). -/
inductive Reachable : Store → Prop where
  | init : Reachable Store.empty
  | create (s : Store) (i : RawInput) :
      Reachable s → Reachable (product_create_view s i).2
  | update (s : Store) (id : Nat) (i : RawInput) :
      Reachable s → Reachable (product_update_view s id i).2
  | delete (s : Store) (id : Nat) :
      Reachable s → Reachable (product_delete_view s id).2

/-- The input of the create-view scenario of the test suite. -/
def createScenarioInput : RawInput :=
  ⟨"Created Product", "Created via view.", "7.50", "3"⟩

/-- The record created in the view-test setup. -/
def viewProduct : Product := ⟨"View Product", "View test.", 500, 2⟩

/-- A store holding the view-test record under id 0. -/
def viewStore : Store := Store.empty.createRec viewProduct

/-- The input of the update-view scenario of the test suite. -/
def updateScenarioInput : RawInput :=
  ⟨"Updated Product", "Updated description.", "10.00", "4"⟩

/-- The result of dropWhile is empty or starts with an element on which the
predicate fails. -/
theorem dropWhile_head_not (p : Char → Bool) (l : List Char) :
    l.dropWhile p = [] ∨
      ∃ a as, l.dropWhile p = a :: as ∧ p a = false := by
  induction l with
  | nil => exact Or.inl rfl
  | cons c cs ih =>
      rw [List.dropWhile_cons]
      by_cases h : p c
      · simpa [h] using ih
      · exact Or.inr ⟨c, cs, by simp [h], by simp [h]⟩

/-- A string whose strip is non-empty is not whitespace-only. -/
theorem pyStrip_not_all_ws (s : String) (h : pyStrip s ≠ "") :
    (pyStrip s).data.all Char.isWhitespace = false := by
  rcases dropWhile_head_not Char.isWhitespace
      ((s.data.dropWhile Char.isWhitespace).reverse) with h0 | ⟨a, as, ha, hna⟩
  · exact absurd (by unfold pyStrip; rw [h0]; rfl) h
  · apply Bool.eq_false_iff.mpr
    intro hall
    have hmem : a ∈ (pyStrip s).data := by
      unfold pyStrip
      rw [ha]
      exact List.mem_reverse.mpr (List.mem_cons_self a as)
    have := List.all_eq_true.mp hall a hmem
    rw [hna] at this
    cases this

/-- A whitespace-only string strips to the empty string. -/
theorem pyStrip_eq_empty_of_all_ws (s : String)
    (h : s.data.all Char.isWhitespace = true) :
    pyStrip s = "" := by
  have h1 : s.data.dropWhile Char.isWhitespace = [] :=
    List.dropWhile_eq_nil_iff.mpr (fun x hx => List.all_eq_true.mp h x hx)
  unfold pyStrip
  rw [h1]
  rfl

/-- The validator verdict is positive exactly when no field error arises. -/
theorem is_valid_iff (i : RawInput) : is_valid i = true ↔ form_errors i = [] := by
  simp [is_valid, List.isEmpty_iff]

/-- Error extraction distributes over concatenation of error mappings. -/
theorem errorsFor_append (a b : List (String × String)) (k : String) :
    errorsFor (a ++ b) k = errorsFor a k ++ errorsFor b k :=
  List.filterMap_append ..

/-- Name-field errors carry no key other than `name`. -/
theorem errorsFor_name_other (i : RawInput) (k : String) (hk : k ≠ "name") :
    errorsFor (field_errors_name i) k = [] := by
  unfold field_errors_name errorsFor
  by_cases h1 : pyStrip i.name = "" <;>
    by_cases h2 : 100 < (pyStrip i.name).length <;>
      simp [h1, h2, Ne.symm hk]

/-- Price-field errors carry no key other than `price`. -/
theorem errorsFor_price_other (i : RawInput) (k : String) (hk : k ≠ "price") :
    errorsFor (field_errors_price i) k = [] := by
  unfold field_errors_price errorsFor
  cases hp : parseDecimal2 i.price with
  | none => simp [Ne.symm hk]
  | some p =>
      by_cases hneg : p < 0 <;> simp [clean_price, hneg, Ne.symm hk]

/-- Quantity-field errors carry no key other than `quantity`. -/
theorem errorsFor_quantity_other (i : RawInput) (k : String)
    (hk : k ≠ "quantity") :
    errorsFor (field_errors_quantity i) k = [] := by
  unfold field_errors_quantity errorsFor
  cases hq : parseIntStr i.quantity with
  | none => simp [Ne.symm hk]
  | some q =>
      by_cases hneg : q < 0 <;> simp [clean_quantity, hneg, Ne.symm hk]

/-- An empty joint error mapping means every field validated. -/
theorem form_errors_split (i : RawInput) (h : form_errors i = []) :
    field_errors_name i = [] ∧ field_errors_price i = [] ∧
      field_errors_quantity i = [] := by
  unfold form_errors at h
  rcases List.append_eq_nil.mp h with ⟨h12, h3⟩
  rcases List.append_eq_nil.mp h12 with ⟨h1, h2⟩
  exact ⟨h1, h2, h3⟩

/-- Without a name error the stripped name is non-empty. -/
theorem valid_name_nonempty (i : RawInput) (h : field_errors_name i = []) :
    pyStrip i.name ≠ "" := by
  intro he
  simp [field_errors_name, he] at h

/-- Without a price error a parsed price is non-negative. -/
theorem valid_price_nonneg (i : RawInput) (h : field_errors_price i = [])
    (p : Int) (hp : parseDecimal2 i.price = some p) : 0 ≤ p := by
  by_contra hneg
  push_neg at hneg
  simp [field_errors_price, hp, clean_price, hneg] at h

/-- Without a quantity error a parsed quantity is non-negative. -/
theorem valid_quantity_nonneg (i : RawInput)
    (h : field_errors_quantity i = [])
    (q : Int) (hq : parseIntStr i.quantity = some q) : 0 ≤ q := by
  by_contra hneg
  push_neg at hneg
  simp [field_errors_quantity, hq, clean_quantity, hneg] at h

/-- The cleaned record of a bound form carries exactly the stripped name, the
raw description and the parsed numeric fields. -/
theorem cleaned_product_fields (i : RawInput) (c : Product)
    (hc : cleaned_product i = some c) :
    c.name = pyStrip i.name ∧ c.description = i.description ∧
      parseDecimal2 i.price = some c.price ∧
      parseIntStr i.quantity = some c.quantity := by
  unfold cleaned_product at hc
  cases hp : parseDecimal2 i.price with
  | none => rw [hp] at hc; cases hc
  | some p =>
      cases hq : parseIntStr i.quantity with
      | none => rw [hp, hq] at hc; cases hc
      | some q =>
          rw [hp, hq] at hc
          have hc2 := Option.some.inj hc
          subst hc2
          exact ⟨rfl, rfl, rfl, rfl⟩

/-- A record passing validation satisfies the store invariants. -/
theorem valid_good (i : RawInput) (c : Product) (hv : is_valid i = true)
    (hc : cleaned_product i = some c) : goodProduct c := by
  have hfe := (is_valid_iff i).mp hv
  obtain ⟨h1, h2, h3⟩ := form_errors_split i hfe
  obtain ⟨f1, f2, f3, f4⟩ := cleaned_product_fields i c hc
  refine ⟨valid_price_nonneg i h2 c.price f3,
    valid_quantity_nonneg i h3 c.quantity f4, ?_, ?_⟩
  · rw [f1]; exact valid_name_nonempty i h1
  · rw [f1]; exact pyStrip_not_all_ws i.name (valid_name_nonempty i h1)

/-- Creation under a fresh id makes the new record retrievable. -/
theorem get_createRec (s : Store) (p : Product)
    (h : s.get s.nextId = none) :
    (s.createRec p).get s.nextId = some p := by
  unfold Store.get Store.createRec
  have hf : s.records.find? (fun r => r.1 == s.nextId) = none := by
    cases hfind : s.records.find? (fun r => r.1 == s.nextId) with
    | none => rfl
    | some r => unfold Store.get at h; rw [hfind] at h; cases h
  rw [List.find?_append, hf]
  simp

/-- After an update of a present id, lookup yields the new record. -/
theorem find?_map_update (l : List (Nat × Product)) (id : Nat) (pNew : Product)
    (h : l.find? (fun r => r.1 == id) ≠ none) :
    (l.map (fun r => if r.1 == id then (id, pNew) else r)).find?
      (fun r => r.1 == id) = some (id, pNew) := by
  induction l with
  | nil => exact absurd rfl h
  | cons a l ih =>
      rw [List.map_cons]
      by_cases ha : (a.1 == id) = true
      · rw [if_pos ha]
        simp [List.find?_cons]
      · have ha2 : (a.1 == id) = false := Bool.eq_false_iff.mpr ha
        rw [if_neg ha, List.find?_cons, ha2]
        apply ih
        intro h0
        apply h
        rw [List.find?_cons, ha2]
        exact h0

/-- Store-level consequence of `find?_map_update`. -/
theorem get_updateRec (s : Store) (id : Nat) (pOld pNew : Product)
    (h : s.get id = some pOld) :
    (s.updateRec id pNew).get id = some pNew := by
  unfold Store.get Store.updateRec
  have hne : s.records.find? (fun r => r.1 == id) ≠ none := by
    intro h0
    unfold Store.get at h
    rw [h0] at h
    cases h
  rw [find?_map_update s.records id pNew hne]
  rfl

/-- Deletion removes the record bound to the id. -/
theorem get_deleteRec (s : Store) (id : Nat) :
    (s.deleteRec id).get id = none := by
  unfold Store.get Store.deleteRec
  have hf : (s.records.filter (fun r => !(r.1 == id))).find?
      (fun r => r.1 == id) = none := by
    rw [List.find?_eq_none]
    intro x hx
    have := (List.mem_filter.mp hx).2
    simpa using this
  rw [hf]
  rfl

/-- Create view equation: failed numeric parse re-renders with errors. -/
theorem create_view_none (s : Store) (i : RawInput)
    (hc : cleaned_product i = none) :
    product_create_view s i = (Response.renderForm (form_errors i), s) := by
  unfold product_create_view
  rw [hc]

/-- Create view equation: a cleaned record rejected by validation
re-renders with errors. -/
theorem create_view_some_invalid (s : Store) (i : RawInput) (c : Product)
    (hc : cleaned_product i = some c) (hv : is_valid i = false) :
    product_create_view s i = (Response.renderForm (form_errors i), s) := by
  unfold product_create_view
  rw [hc]
  exact if_neg (by simp [hv])

/-- Create view equation: a validated record is inserted, then redirect. -/
theorem create_view_valid (s : Store) (i : RawInput) (c : Product)
    (hc : cleaned_product i = some c) (hv : is_valid i = true) :
    product_create_view s i =
      (Response.redirect "product_list", s.createRec c) := by
  unfold product_create_view
  rw [hc]
  exact if_pos hv

/-- Update view equation: an unresolved id yields not-found. -/
theorem update_view_absent (s : Store) (id : Nat) (i : RawInput)
    (hg : s.get id = none) :
    product_update_view s id i = (Response.notFound, s) := by
  unfold product_update_view
  rw [hg]

/-- Update view equation: failed numeric parse re-renders with errors. -/
theorem update_view_some_none (s : Store) (id : Nat) (i : RawInput)
    (p0 : Product) (hg : s.get id = some p0)
    (hc : cleaned_product i = none) :
    product_update_view s id i = (Response.renderForm (form_errors i), s) := by
  unfold product_update_view
  rw [hg, hc]

/-- Update view equation: a cleaned record rejected by validation
re-renders with errors. -/
theorem update_view_some_invalid (s : Store) (id : Nat) (i : RawInput)
    (p0 c : Product) (hg : s.get id = some p0)
    (hc : cleaned_product i = some c) (hv : is_valid i = false) :
    product_update_view s id i = (Response.renderForm (form_errors i), s) := by
  unfold product_update_view
  rw [hg, hc]
  exact if_neg (by simp [hv])

/-- Update view equation: a validated record replaces the stored one, then
redirect. -/
theorem update_view_valid (s : Store) (id : Nat) (i : RawInput)
    (p0 c : Product) (hg : s.get id = some p0)
    (hc : cleaned_product i = some c) (hv : is_valid i = true) :
    product_update_view s id i =
      (Response.redirect "product_list", s.updateRec id c) := by
  unfold product_update_view
  rw [hg, hc]
  exact if_pos hv

/-- Delete view equation: an unresolved id yields not-found. -/
theorem delete_view_absent (s : Store) (id : Nat) (hg : s.get id = none) :
    product_delete_view s id = (Response.notFound, s) := by
  unfold product_delete_view
  rw [hg]

/-- Delete view equation: a present id is removed, then redirect. -/
theorem delete_view_present (s : Store) (id : Nat) (p0 : Product)
    (hg : s.get id = some p0) :
    product_delete_view s id =
      (Response.redirect "product_list", s.deleteRec id) := by
  unfold product_delete_view
  rw [hg]

/-- C1: for every input whose price parses to a negative value or whose
quantity parses to a negative value, the validator rejects the input, the
offending field key is present in the error mapping, and the attached
message is exactly "Price cannot be negative." under `price`, respectively
"Quantity cannot be negative." under `quantity`. -/
theorem C1_negative_value_errors (i : RawInput) :
    (∀ p : Int, parseDecimal2 i.price = some p → p < 0 →
        is_valid i = false ∧
        errorsFor (form_errors i) "price" = ["Price cannot be negative."]) ∧
    (∀ q : Int, parseIntStr i.quantity = some q → q < 0 →
        is_valid i = false ∧
        errorsFor (form_errors i) "quantity" =
          ["Quantity cannot be negative."]) := by
  constructor
  · intro p hp hneg
    have hfe : field_errors_price i = [("price", "Price cannot be negative.")] := by
      simp [field_errors_price, hp, clean_price, hneg]
    constructor
    · apply Bool.eq_false_iff.mpr
      intro hv
      have hs := form_errors_split i ((is_valid_iff i).mp hv)
      rw [hfe] at hs
      cases hs.2.1
    · unfold form_errors
      rw [errorsFor_append, errorsFor_append, hfe]
      rw [errorsFor_name_other i _ (by decide),
        errorsFor_quantity_other i _ (by decide)]
      simp [errorsFor]
  · intro q hq hneg
    have hfe : field_errors_quantity i =
        [("quantity", "Quantity cannot be negative.")] := by
      simp [field_errors_quantity, hq, clean_quantity, hneg]
    constructor
    · apply Bool.eq_false_iff.mpr
      intro hv
      have hs := form_errors_split i ((is_valid_iff i).mp hv)
      rw [hfe] at hs
      cases hs.2.2
    · unfold form_errors
      rw [errorsFor_append, errorsFor_append, hfe]
      rw [errorsFor_name_other i _ (by decide),
        errorsFor_price_other i _ (by decide)]
      simp [errorsFor]

/-- Witness for C1 at the concrete rejected inputs of the test suite. -/
theorem C1_witness :
    (is_valid ⟨"Test Product", "Test negative price", "-1", "1"⟩ = false ∧
      errorsFor (form_errors ⟨"Test Product", "Test negative price", "-1", "1"⟩)
        "price" = ["Price cannot be negative."]) ∧
    (is_valid ⟨"Test Product", "Test negative quantity", "1", "-1"⟩ = false ∧
      errorsFor (form_errors ⟨"Test Product", "Test negative quantity", "1", "-1"⟩)
        "quantity" = ["Quantity cannot be negative."]) :=
  ⟨(C1_negative_value_errors ⟨"Test Product", "Test negative price", "-1", "1"⟩).1
      (-100) (by decide) (by decide),
    (C1_negative_value_errors ⟨"Test Product", "Test negative quantity", "1", "-1"⟩).2
      (-1) (by decide) (by decide)⟩

/-- C2: every input with non-negative parsed price and quantity and a name
that strips to a non-empty string of at most 100 characters validates, and
saving under a fresh id stores a record whose price and quantity are the
parsed values exactly. -/
theorem C2_valid_input_saves (i : RawInput) (s : Store) (p q : Int)
    (hp : parseDecimal2 i.price = some p) (hq : parseIntStr i.quantity = some q)
    (hp0 : 0 ≤ p) (hq0 : 0 ≤ q)
    (hn : pyStrip i.name ≠ "") (hlen : (pyStrip i.name).length ≤ 100)
    (hfresh : s.get s.nextId = none) :
    is_valid i = true ∧
    ∃ c : Product, cleaned_product i = some c ∧
      (s.createRec c).get s.nextId = some c ∧ c.price = p ∧ c.quantity = q := by
  have h1 : field_errors_name i = [] := by
    simp [field_errors_name, hn, Nat.not_lt.mpr hlen]
  have h2 : field_errors_price i = [] := by
    simp [field_errors_price, hp, clean_price, Int.not_lt.mpr hp0]
  have h3 : field_errors_quantity i = [] := by
    simp [field_errors_quantity, hq, clean_quantity, Int.not_lt.mpr hq0]
  have hv : is_valid i = true := (is_valid_iff i).mpr (by
    unfold form_errors
    rw [h1, h2, h3]
    rfl)
  refine ⟨hv, ⟨pyStrip i.name, i.description, p, q⟩, ?_, ?_, rfl, rfl⟩
  · unfold cleaned_product
    rw [hp, hq]
  · exact get_createRec s _ hfresh

/-- Witness for C2 on the large-price input of the test suite: the exact
decimal 9999999.99 (999999999 hundredths) is stored unchanged. -/
theorem C2_witness :
    is_valid ⟨"Large Price Product", "Testing large price.", "9999999.99", "10"⟩ = true ∧
    ∃ c : Product,
      cleaned_product
          ⟨"Large Price Product", "Testing large price.", "9999999.99", "10"⟩ =
        some c ∧
      (Store.empty.createRec c).get Store.empty.nextId = some c ∧
      c.price = 999999999 ∧ c.quantity = 10 :=
  C2_valid_input_saves
    ⟨"Large Price Product", "Testing large price.", "9999999.99", "10"⟩
    Store.empty 999999999 10 (by decide) (by decide) (by decide) (by decide)
    (by decide) (by decide) (by decide)

/-- C3: a whitespace-only name always fails validation, no matter the other
fields, with the exact message attached under the key `name`. -/
theorem C3_whitespace_name_rejected (i : RawInput)
    (h : i.name.data.all Char.isWhitespace = true) :
    is_valid i = false ∧
    errorsFor (form_errors i) "name" = ["This field is required."] := by
  have hs : pyStrip i.name = "" := pyStrip_eq_empty_of_all_ws i.name h
  have hfe : field_errors_name i = [("name", "This field is required.")] := by
    simp [field_errors_name, hs]
  constructor
  · apply Bool.eq_false_iff.mpr
    intro hv
    have hsplit := form_errors_split i ((is_valid_iff i).mp hv)
    rw [hfe] at hsplit
    cases hsplit.1
  · unfold form_errors
    rw [errorsFor_append, errorsFor_append, hfe]
    rw [errorsFor_price_other i _ (by decide),
      errorsFor_quantity_other i _ (by decide)]
    simp [errorsFor]

/-- Witness for C3 on the whitespace-name input of the test suite. -/
theorem C3_witness :
    is_valid ⟨"   ", "Whitespace name.", "10", "5"⟩ = false ∧
    errorsFor (form_errors ⟨"   ", "Whitespace name.", "10", "5"⟩) "name" =
      ["This field is required."] :=
  C3_whitespace_name_rejected ⟨"   ", "Whitespace name.", "10", "5"⟩ (by decide)

/-- C4: in every store reachable through the workflow handlers (all writes
passing through the validator), every persisted record has non-negative
price and quantity and a name that is neither empty nor whitespace-only. -/
theorem C4_reachable_invariant (s : Store) (h : Reachable s) :
    ∀ id p, (id, p) ∈ s.records → goodProduct p := by
  induction h with
  | init => intro id p hp; cases hp
  | create s i hr ih =>
      intro id p hp
      cases hc : cleaned_product i with
      | none =>
          rw [create_view_none s i hc] at hp
          exact ih id p hp
      | some c =>
          cases hv : is_valid i with
          | false =>
              rw [create_view_some_invalid s i c hc hv] at hp
              exact ih id p hp
          | true =>
              rw [create_view_valid s i c hc hv] at hp
              have hp2 : (id, p) ∈ s.records ++ [(s.nextId, c)] := hp
              rcases List.mem_append.mp hp2 with hmem | hmem
              · exact ih id p hmem
              · have he := List.mem_singleton.mp hmem
                have hpc : p = c := congrArg Prod.snd he
                rw [hpc]
                exact valid_good i c hv hc
  | update s id0 i hr ih =>
      intro id p hp
      cases hg : s.get id0 with
      | none =>
          rw [update_view_absent s id0 i hg] at hp
          exact ih id p hp
      | some p0 =>
          cases hc : cleaned_product i with
          | none =>
              rw [update_view_some_none s id0 i p0 hg hc] at hp
              exact ih id p hp
          | some c =>
              cases hv : is_valid i with
              | false =>
                  rw [update_view_some_invalid s id0 i p0 c hg hc hv] at hp
                  exact ih id p hp
              | true =>
                  rw [update_view_valid s id0 i p0 c hg hc hv] at hp
                  have hp2 : (id, p) ∈ s.records.map
                      (fun r => if r.1 == id0 then (id0, c) else r) := hp
                  rcases List.mem_map.mp hp2 with ⟨r, hr0, hr1⟩
                  by_cases hid : (r.1 == id0) = true
                  · rw [if_pos hid] at hr1
                    have hpc : p = c := (congrArg Prod.snd hr1).symm
                    rw [hpc]
                    exact valid_good i c hv hc
                  · rw [if_neg hid] at hr1
                    rw [hr1] at hr0
                    exact ih id p hr0
  | delete s id0 hr ih =>
      intro id p hp
      cases hg : s.get id0 with
      | none =>
          rw [delete_view_absent s id0 hg] at hp
          exact ih id p hp
      | some p0 =>
          rw [delete_view_present s id0 p0 hg] at hp
          have hp2 : (id, p) ∈ s.records.filter (fun r => !(r.1 == id0)) := hp
          exact ih id p (List.mem_filter.mp hp2).1

/-- Witness for C4: the record inserted by the create scenario from the
empty store satisfies the invariants. -/
theorem C4_witness :
    goodProduct ⟨"Created Product", "Created via view.", 750, 3⟩ :=
  C4_reachable_invariant _
    (Reachable.create Store.empty createScenarioInput Reachable.init) 0
    ⟨"Created Product", "Created via view.", 750, 3⟩ (by decide)

/-- C5: the create scenario of the test suite yields a 302 redirect to the
List endpoint, and the subsequent List rendering contains the name
"Created Product". -/
theorem C5_create_scenario (s : Store) :
    (product_create_view s createScenarioInput).1 =
      Response.redirect "product_list" ∧
    (product_create_view s createScenarioInput).1.status = 302 ∧
    (product_list_view (product_create_view s createScenarioInput).2).1 =
      Response.render
        ((product_create_view s createScenarioInput).2.records.map
          (fun r => r.2.name)) ∧
    "Created Product" ∈
      ((product_create_view s createScenarioInput).2.records.map
        (fun r => r.2.name)) := by
  have hc : cleaned_product createScenarioInput =
      some ⟨"Created Product", "Created via view.", 750, 3⟩ := by decide
  have hv : is_valid createScenarioInput = true := by decide
  have hview : product_create_view s createScenarioInput =
      (Response.redirect "product_list",
        s.createRec ⟨"Created Product", "Created via view.", 750, 3⟩) :=
    create_view_valid s createScenarioInput _ hc hv
  rw [hview]
  refine ⟨rfl, rfl, rfl, ?_⟩
  unfold Store.createRec
  rw [List.map_append]
  exact List.mem_append_right _ (by simp)

/-- C6: a successful update of an existing id yields a 302 redirect to List
and the record under the unchanged id carries exactly the four new editable
field values. -/
theorem C6_update_replaces (s : Store) (id : Nat) (i : RawInput)
    (p0 c : Product) (h0 : s.get id = some p0) (hv : is_valid i = true)
    (hc : cleaned_product i = some c) :
    (product_update_view s id i).1 = Response.redirect "product_list" ∧
    (product_update_view s id i).1.status = 302 ∧
    (product_update_view s id i).2.get id = some c ∧
    c.name = pyStrip i.name ∧ c.description = i.description ∧
    parseDecimal2 i.price = some c.price ∧
    parseIntStr i.quantity = some c.quantity := by
  obtain ⟨f1, f2, f3, f4⟩ := cleaned_product_fields i c hc
  have hview : product_update_view s id i =
      (Response.redirect "product_list", s.updateRec id c) :=
    update_view_valid s id i p0 c h0 hc hv
  rw [hview]
  exact ⟨rfl, rfl, get_updateRec s id p0 c h0, f1, f2, f3, f4⟩

/-- Witness for C6 on the update-view scenario of the test suite. -/
theorem C6_witness :
    (product_update_view viewStore 0 updateScenarioInput).1 =
      Response.redirect "product_list" ∧
    (product_update_view viewStore 0 updateScenarioInput).2.get 0 =
      some ⟨"Updated Product", "Updated description.", 1000, 4⟩ :=
  have h := C6_update_replaces viewStore 0 updateScenarioInput viewProduct
    ⟨"Updated Product", "Updated description.", 1000, 4⟩
    (by decide) (by decide) (by decide)
  ⟨h.1, h.2.2.1⟩

/-- C7: delete of a present id redirects (302) and is terminal — afterwards
the id resolves to nothing, update of it yields not-found, and a retried
delete of the now-absent id yields not-found rather than a crash. -/
theorem C7_delete_terminal (s : Store) (id : Nat) (i : RawInput)
    (h : s.get id ≠ none) :
    (product_delete_view s id).1 = Response.redirect "product_list" ∧
    (product_delete_view s id).2.get id = none ∧
    (product_update_view (product_delete_view s id).2 id i).1 =
      Response.notFound ∧
    (product_delete_view (product_delete_view s id).2 id).1 =
      Response.notFound := by
  cases hg : s.get id with
  | none => exact absurd hg h
  | some p0 =>
      have hview : product_delete_view s id =
          (Response.redirect "product_list", s.deleteRec id) :=
        delete_view_present s id p0 hg
      have hnone : (s.deleteRec id).get id = none := get_deleteRec s id
      refine ⟨?_, ?_, ?_, ?_⟩
      · rw [hview]
      · rw [hview]
        exact hnone
      · rw [hview]
        show (product_update_view (s.deleteRec id) id i).1 = Response.notFound
        rw [update_view_absent (s.deleteRec id) id i hnone]
      · rw [hview]
        show (product_delete_view (s.deleteRec id) id).1 = Response.notFound
        rw [delete_view_absent (s.deleteRec id) id hnone]

/-- Witness for C7 on the delete-view scenario of the test suite. -/
theorem C7_witness :
    (product_delete_view viewStore 0).1 = Response.redirect "product_list" ∧
    (product_delete_view viewStore 0).2.get 0 = none ∧
    (product_update_view (product_delete_view viewStore 0).2 0
        updateScenarioInput).1 = Response.notFound ∧
    (product_delete_view (product_delete_view viewStore 0).2 0).1 =
      Response.notFound :=
  C7_delete_terminal viewStore 0 updateScenarioInput (by decide)

/-- C8: List is idempotent — reading twice with no intervening write returns
the same rendering, and a read leaves the store untouched. -/
theorem C8_list_idempotent (s : Store) :
    (product_list_view (product_list_view s).2).1 = (product_list_view s).1 ∧
    (product_list_view s).2 = s :=
  ⟨rfl, rfl⟩

/-- C9: an invalid create re-renders the form carrying the (non-empty) error
mapping at status 200 and inserts nothing into the store. -/
theorem C9_create_invalid (s : Store) (i : RawInput)
    (h : is_valid i = false) :
    (product_create_view s i).1 = Response.renderForm (form_errors i) ∧
    (product_create_view s i).1.status = 200 ∧
    (product_create_view s i).2 = s ∧
    form_errors i ≠ [] := by
  have hne : form_errors i ≠ [] := by
    intro h0
    have hv := (is_valid_iff i).mpr h0
    rw [h] at hv
    cases hv
  have hview : product_create_view s i =
      (Response.renderForm (form_errors i), s) := by
    cases hc : cleaned_product i with
    | none => exact create_view_none s i hc
    | some c => exact create_view_some_invalid s i c hc h
  rw [hview]
  exact ⟨rfl, rfl, rfl, hne⟩

/-- Witness for C9 on the missing-name input of the test suite. -/
theorem C9_witness :
    (product_create_view Store.empty ⟨"", "No name", "1", "1"⟩).1 =
      Response.renderForm (form_errors ⟨"", "No name", "1", "1"⟩) ∧
    (product_create_view Store.empty ⟨"", "No name", "1", "1"⟩).2 =
      Store.empty ∧
    form_errors ⟨"", "No name", "1", "1"⟩ ≠ [] :=
  have h := C9_create_invalid Store.empty ⟨"", "No name", "1", "1"⟩ (by decide)
  ⟨h.1, h.2.2.1, h.2.2.2⟩

/-- C10: the clean hooks are total and value-preserving: a missing value and
a non-negative value pass through unchanged, and the only failure is the
validation error raised exactly on a present negative value. -/
theorem C10_clean_hooks_preserve (v : Int) :
    clean_price none = Except.ok none ∧
    clean_quantity none = Except.ok none ∧
    (0 ≤ v → clean_price (some v) = Except.ok (some v)) ∧
    (0 ≤ v → clean_quantity (some v) = Except.ok (some v)) ∧
    (v < 0 → clean_price (some v) = Except.error "Price cannot be negative.") ∧
    (v < 0 → clean_quantity (some v) =
      Except.error "Quantity cannot be negative.") := by
  refine ⟨rfl, rfl, ?_, ?_, ?_, ?_⟩ <;> intro h
  · simp [clean_price, Int.not_lt.mpr h]
  · simp [clean_quantity, Int.not_lt.mpr h]
  · simp [clean_price, h]
  · simp [clean_quantity, h]

/-- Witness for C10 at a present non-negative and a present negative value. -/
theorem C10_witness :
    clean_price (some 5) = Except.ok (some 5) ∧
    clean_price (some (-1)) = Except.error "Price cannot be negative." ∧
    clean_quantity (some 5) = Except.ok (some 5) ∧
    clean_quantity (some (-1)) = Except.error "Quantity cannot be negative." :=
  ⟨(C10_clean_hooks_preserve 5).2.2.1 (by decide),
    (C10_clean_hooks_preserve (-1)).2.2.2.2.1 (by decide),
    (C10_clean_hooks_preserve 5).2.2.2.1 (by decide),
    (C10_clean_hooks_preserve (-1)).2.2.2.2.2 (by decide)⟩

end Inventory
